import Mathlib

/-!
# Shadow-fundMe: the four wallet handlers of `index.js`

A shallow embedding of `src/index.js`.  The file is four `async` click
handlers (`connect`, `withdraw`, `fund`, `getBalance`) that talk to an injected
wallet (`window.ethereum`), to the `ethers` library and to the page.

* Everything outside the file (wallet, chain, library, constants) is a
  `World`: for each call the handlers can make, the way that call settles.
* The page is the text of the four buttons and the value of the `ethAmount`
  input.
* A handler is a `Js Unit`: it threads the page and the ordered trace of
  observable events, and either completes or throws.  `try`/`catch` keeps the
  effects made before the throw, as in JavaScript.
* `run` gives what one click leaves behind: the page, the trace, and the error
  the handler's promise rejected with, if any.
-/

namespace FundMe

/-! ## Values exchanged with the outside -/

/-- A thrown JavaScript value, as far as the handlers look at it: `error.reason`
(absent, or a string) and `error.message`. -/
structure JsError where
  reason : Option String
  message : String
  deriving DecidableEq, Repr

/-- How an awaited promise settles. -/
inductive Reply (α : Type) where
  | resolved (value : α)
  | rejected (error : JsError)

/-- The object `contract.fund(...)` / `contract.withdraw()` resolve to: its `hash`
and how `wait(confirms)` settles. -/
structure TransactionResponse where
  hash : String
  wait : Nat → Reply Unit

/-- Everything the handlers reach outside `index.js` during one click. -/
structure World where
  /-- Whether `typeof window.ethereum !== "undefined"`. -/
  ethereum : Bool
  /-- The `contractAddress` exported by `constants.js`. -/
  contractAddress : String
  /-- The `abi` exported by `constants.js` (passed through, never inspected). -/
  abi : String
  /-- The library function `ethers.parseEther`: a bigint, or a thrown error. -/
  parseEther : String → Except JsError Int
  /-- The library function `ethers.formatEther`. -/
  formatEther : Int → String
  /-- The wallet's JSON-RPC entry point, by method name; both
  `ethereum.request` and `provider.send` end up here. -/
  request : String → Reply (List String)
  /-- The reply to `provider.getNetwork()`: the `chainId` bigint of the network. -/
  getNetwork : Reply Int
  /-- The reply to `provider.getSigner()`: the signer (its address). -/
  getSigner : Reply String
  /-- The reply to `contract.fund` called with the given `value`. -/
  contractFund : Int → Reply TransactionResponse
  /-- The reply to `contract.withdraw()`. -/
  contractWithdraw : Reply TransactionResponse
  /-- The reply to `provider.getBalance(address)`. -/
  getBalance : String → Reply Int

/-! ## The page -/

/-- The four buttons looked up at the top of `index.js`. -/
inductive Button where
  | connectButton
  | withdrawButton
  | fundButton
  | balanceButton
  deriving DecidableEq, Repr

/-- The page: the `innerHTML` of each button and the `value` of the `ethAmount`
input. -/
structure Page where
  connectButton : String
  withdrawButton : String
  fundButton : String
  balanceButton : String
  ethAmount : String
  deriving DecidableEq, Repr

/-- Assignment `button.innerHTML = html`. -/
def Page.setInnerHTML (p : Page) : Button → String → Page
  | .connectButton, html => { p with connectButton := html }
  | .withdrawButton, html => { p with withdrawButton := html }
  | .fundButton, html => { p with fundButton := html }
  | .balanceButton, html => { p with balanceButton := html }

/-! ## Observable events -/

/-- The awaited calls into the wallet provider and the contract binding. -/
inductive Call where
  /-- The call `ethereum.request` with the given `method`. -/
  | request (method : String)
  /-- The call `provider.send(method, params)`. -/
  | send (method : String) (params : List String)
  /-- The call `provider.getNetwork()`. -/
  | getNetwork
  /-- The call `provider.getSigner()`. -/
  | getSigner
  /-- The call `contract.fund(overrides)`; the overrides object is listed key by key. -/
  | fund (overrides : List (String × Int))
  /-- The call `contract.withdraw()`. -/
  | withdraw
  /-- The call `transactionResponse.wait(confirms)`. -/
  | wait (confirms : Nat)
  /-- The call `provider.getBalance(address)`. -/
  | getBalance (address : String)
  deriving DecidableEq, Repr

/-- One argument of a `console.log` / `console.error` call. -/
inductive LogArg where
  | str (s : String)
  | error (e : JsError)
  | accounts (list : List String)
  deriving DecidableEq, Repr

/-- What a handler does that can be seen from outside, in the order it does it. -/
inductive Event where
  | consoleLog (args : List LogArg)
  | consoleError (args : List LogArg)
  | alert (message : String)
  | setInnerHTML (button : Button) (html : String)
  /-- The construction `new ethers.BrowserProvider(window.ethereum)`. -/
  | newBrowserProvider
  /-- The construction `new ethers.Contract(address, abi, signer)`. -/
  | newContract (address abi signer : String)
  /-- An awaited call, and whether it resolved (`true`) or rejected (`false`). -/
  | await (call : Call) (resolved : Bool)
  deriving DecidableEq, Repr

/-! ## The handler monad -/

/-- The page and the events so far. -/
structure State where
  page : Page
  trace : List Event

/-- A step either completes with a value or throws; the state survives both. -/
inductive Completion (α : Type) where
  | normal (value : α) (s : State)
  | thrown (error : JsError) (s : State)

/-- A piece of handler code. -/
def Js (α : Type) : Type := State → Completion α

namespace Js

/-- Completing with a value. -/
@[simp]
def ret {α : Type} (a : α) : Js α := fun s => .normal a s

/-- Sequencing: a throw skips the rest. -/
@[simp]
def andThen {α β : Type} (x : Js α) (f : α → Js β) : Js β := fun s =>
  match x s with
  | .normal a s1 => f a s1
  | .thrown e s1 => .thrown e s1

/-- The statement `throw e`. -/
@[simp]
def raise {α : Type} (e : JsError) : Js α := fun s => .thrown e s

/-- The block `try body catch (error) handler`. -/
@[simp]
def tryCatch {α : Type} (body : Js α) (handler : JsError → Js α) : Js α := fun s =>
  match body s with
  | .normal a s1 => .normal a s1
  | .thrown e s1 => handler e s1

instance : Monad Js where
  pure := ret
  bind := andThen

instance : MonadExcept JsError Js where
  throw := raise
  tryCatch := tryCatch

/-- Appending one event to the trace. -/
@[simp]
def emit (e : Event) : Js Unit := fun s =>
  .normal () { s with trace := s.trace ++ [e] }

end Js

open Js

/-- The call `console.log(args)`. -/
@[simp]
def consoleLog (args : List LogArg) : Js Unit := emit (.consoleLog args)

/-- The call `console.error(args)`. -/
@[simp]
def consoleError (args : List LogArg) : Js Unit := emit (.consoleError args)

/-- The call `alert(message)`. -/
@[simp]
def alert (message : String) : Js Unit := emit (.alert message)

/-- The assignment `button.innerHTML = html`: changes the page and is traced. -/
@[simp]
def setInnerHTML (b : Button) (html : String) : Js Unit := fun s =>
  .normal () { page := s.page.setInnerHTML b html, trace := s.trace ++ [.setInnerHTML b html] }

/-- The expression `document.getElementById("ethAmount").value`. -/
@[simp]
def ethAmountValue : Js String := fun s => .normal s.page.ethAmount s

/-- The construction `new ethers.BrowserProvider(window.ethereum)`, reached only
when `window.ethereum` is defined; on a wallet provider it does not throw. -/
@[simp]
def newBrowserProvider : Js Unit := emit .newBrowserProvider

/-- The construction `new ethers.Contract(contractAddress, abi, signer)`. -/
@[simp]
def newContract (address abi signer : String) : Js Unit :=
  emit (.newContract address abi signer)

/-- The expression `await call`: the call is made (and traced with its outcome);
a rejection is thrown at the `await`. -/
@[simp]
def await {α : Type} (c : Call) (r : Reply α) : Js α := fun s =>
  match r with
  | .resolved a => .normal a { s with trace := s.trace ++ [.await c true] }
  | .rejected e => .thrown e { s with trace := s.trace ++ [.await c false] }

/-- A synchronous library call that returns or throws. -/
@[simp]
def call {α : Type} (r : Except JsError α) : Js α :=
  match r with
  | .ok a => pure a
  | .error e => throw e

/-- Truthiness of `error.reason`, the test of `if (error.reason)`: present and not
the empty string. -/
def JsError.reasonTruthy (e : JsError) : Bool :=
  match e.reason with
  | some r => r != ""
  | none => false

/-- The text `${error.reason}` inside a template literal. -/
def JsError.reasonText (e : JsError) : String :=
  match e.reason with
  | some r => r
  | none => "undefined"

/-! ## The handlers of `index.js` -/

/-- The handler `connect` (lines 13-26). -/
def connect (w : World) : Js Unit := do
  if w.ethereum then
    try
      let _ ← await (.request "eth_requestAccounts") (w.request "eth_requestAccounts")
      setInnerHTML .connectButton "Connected"
      let accounts ← await (.request "eth_accounts") (w.request "eth_accounts")
      consoleLog [.accounts accounts]
    catch error =>
      consoleLog [.error error]
  else
    setInnerHTML .connectButton "Please install MetaMask"

/-- The handler `withdraw` (lines 28-46). -/
def withdraw (w : World) : Js Unit := do
  consoleLog [.str "Withdrawing..."]
  if w.ethereum then
    newBrowserProvider
    let _ ← await (.send "eth_requestAccounts" []) (w.request "eth_requestAccounts")
    let signer ← await .getSigner w.getSigner
    newContract w.contractAddress w.abi signer
    try
      consoleLog [.str "Processing transaction..."]
      let transactionResponse ← await .withdraw w.contractWithdraw
      await (.wait 1) (transactionResponse.wait 1)
      consoleLog [.str "Done!"]
    catch error =>
      consoleLog [.error error]
  else
    setInnerHTML .withdrawButton "Please install MetaMask"

/-- The handler `fund` (lines 48-90).  The `return` of line 63 ends the handler, so
the statements after the network check are the `else` branch here. -/
def fund (w : World) : Js Unit := do
  let ethAmount ← ethAmountValue
  consoleLog [.str ("Funding with " ++ ethAmount ++ "...")]
  if w.ethereum then
    newBrowserProvider
    let _ ← await (.send "eth_requestAccounts" []) (w.request "eth_requestAccounts")
    let chainId ← await .getNetwork w.getNetwork
    consoleLog [.str "Connected to network chainId:", .str (toString chainId)]
    if chainId ≠ 11155111 then
      alert "Wrong Network! Please switch MetaMask to Sepolia Testnet"
      consoleLog [.str "Expected: 11155111, Got:", .str (toString chainId)]
    else
      let signer ← await .getSigner w.getSigner
      newContract w.contractAddress w.abi signer
      try
        consoleLog [.str "Sending transaction..."]
        let value ← call (w.parseEther ethAmount)
        let transactionResponse ← await (.fund [("value", value)]) (w.contractFund value)
        consoleLog [.str "Transaction hash:", .str transactionResponse.hash]
        consoleLog [.str "Waiting for confirmation..."]
        await (.wait 1) (transactionResponse.wait 1)
        consoleLog [.str "Done! Funded successfully!"]
        alert ("Successfully funded with " ++ ethAmount ++ " ETH!")
      catch error =>
        consoleError [.str "Error details:", .error error]
        if error.reasonTruthy then
          alert ("Transaction failed: " ++ error.reasonText)
        else
          alert ("Error: " ++ error.message)
  else
    setInnerHTML .fundButton "Please install MetaMask"

/-- The handler `getBalance` (lines 92-104). -/
def getBalance (w : World) : Js Unit := do
  if w.ethereum then
    newBrowserProvider
    try
      let balance ← await (.getBalance w.contractAddress) (w.getBalance w.contractAddress)
      consoleLog [.str (w.formatEther balance)]
    catch error =>
      consoleLog [.error error]
  else
    setInnerHTML .balanceButton "Please install MetaMask"

/-! ## One click -/

/-- What one click leaves behind. -/
structure Run where
  page : Page
  trace : List Event
  /-- The error the handler's promise rejected with; `none` when it fulfilled. -/
  escaped : Option JsError
  deriving DecidableEq, Repr

/-- Running a handler on a page, from an empty trace. -/
def run (h : Js Unit) (p : Page) : Run :=
  match h { page := p, trace := [] } with
  | .normal _ s => { page := s.page, trace := s.trace, escaped := none }
  | .thrown e s => { page := s.page, trace := s.trace, escaped := some e }

/-- The messages of the alerts of a trace, in order. -/
def alerts (t : List Event) : List String :=
  t.filterMap fun e => match e with
    | .alert m => some m
    | _ => none

/-- The awaited calls of a trace, in order. -/
def calls (t : List Event) : List Call :=
  t.filterMap fun e => match e with
    | .await c _ => some c
    | _ => none

/-- The chain id `fund` insists on (`11155111n`, Sepolia). -/
def expectedChainId : Int := 11155111

/-- The overrides objects of the `contract.fund` calls of a trace, in order. -/
def fundCalls (t : List Event) : List (List (String × Int)) :=
  (calls t).filterMap fun c => match c with
    | .fund overrides => some overrides
    | _ => none

/-- The awaited calls of a complete `fund`, in source order (lines 54, 57, 66, 71
and 76), with `value` the parsed amount. -/
def fundSequence (value : Int) : List Call :=
  [.send "eth_requestAccounts" [], .getNetwork, .getSigner, .fund [("value", value)], .wait 1]

/-- The awaited calls of a complete `withdraw`, in source order (lines 32, 33, 37
and 38). -/
def withdrawSequence : List Call :=
  [.send "eth_requestAccounts" [], .getSigner, .withdraw, .wait 1]

/-! ## The library's amount parser -/

namespace ethers

/-- The value of a decimal digit character. -/
def digitValue (c : Char) : Nat := c.toNat - '0'.toNat

/-- The natural number written by a string of decimal digits, most significant
first. -/
def digitsValue (ds : List Char) : Nat :=
  ds.foldl (fun acc c => 10 * acc + digitValue c) 0

/-- The parts of a decimal amount string: sign, digits before the point, digits
after it. -/
structure Decimal where
  negative : Bool
  whole : List Char
  fraction : List Char
  deriving DecidableEq, Repr

/-- Splitting a string as an optional `-`, digits, an optional `.`, digits, and
nothing else. -/
def splitDecimal (s : String) : Option Decimal :=
  let (negative, body) := match s.toList with
    | '-' :: rest => (true, rest)
    | cs => (false, cs)
  let whole := body.takeWhile Char.isDigit
  match body.dropWhile Char.isDigit with
  | [] => some ⟨negative, whole, []⟩
  | '.' :: fraction =>
    if fraction.all Char.isDigit then some ⟨negative, whole, fraction⟩ else none
  | _ => none

/-- Modelled from the spec: `ethers.parseEther` is defined in
`ethers-6.7.esm.min.js`, which is not among the sources.  The spec says that it
parses a decimal amount string "into the chain's smallest unit", that `"1.5"`
becomes `1.5 × 10^18`, and that some strings cannot be parsed.  The model reads
an optional sign, digits, an optional point and digits (at least one digit in
all), pads the fraction to eighteen places, refuses non-zero digits beyond the
eighteenth, and refuses results outside the signed 512-bit range the library
computes in.  `none` stands for the library throwing. -/
def parseEther (s : String) : Option Int :=
  match splitDecimal s with
  | none => none
  | some d =>
    if d.whole.length + d.fraction.length = 0 then none
    else
      let padded := d.fraction ++ List.replicate (18 - d.fraction.length) '0'
      if (padded.drop 18).all (fun c => c == '0') then
        let magnitude := digitsValue (d.whole ++ padded.take 18)
        let value : Int := if d.negative then -(magnitude : Int) else (magnitude : Int)
        if (if d.negative then magnitude ≤ 1 <<< 511 else magnitude < 1 <<< 511) then
          some value
        else none
      else none

/-- The library function as the handlers see it: the parsed bigint, or the error
`thrown` where the library throws.  The text of the library's own errors is not
modelled, so the error is a parameter. -/
def parseEtherOrThrow (thrown : JsError) (s : String) : Except JsError Int :=
  match parseEther s with
  | some v => .ok v
  | none => .error thrown

/-! ### Decimal numerals and the amounts they denote

The amount a string denotes is defined on numerals (a sign and two lists of
digits), not on what the parser reads: `render` writes a numeral as a string and
`amount` is its rational value. -/

/-- The character that writes a decimal digit. -/
def digitChar (d : Fin 10) : Char := Char.ofNat (48 + d.val)

/-- The characters written after the whole digits: nothing, or a point and the
fraction digits. -/
def renderFraction (fraction : Option (List (Fin 10))) : List Char :=
  match fraction with
  | none => []
  | some digits => '.' :: digits.map digitChar

/-- A decimal numeral as written: a minus sign when negative, the whole digits,
and, when a point is written, the point and the fraction digits. -/
def render (negative : Bool) (whole : List (Fin 10)) (fraction : Option (List (Fin 10))) :
    String :=
  String.mk ((if negative then ['-'] else []) ++
    (whole.map digitChar ++ renderFraction fraction))

/-- The value of the digits written after the point: the first counts tenths,
the second hundredths, and so on. -/
def fractionAmount : List (Fin 10) → ℚ
  | [] => 0
  | d :: ds => ((d.val : ℚ) + fractionAmount ds) / 10

/-- The number a decimal numeral denotes, the spec's "amount": its whole digits
read in base ten plus the value of its fraction digits, negated under a minus
sign. -/
def amount (negative : Bool) (whole : List (Fin 10)) (fraction : Option (List (Fin 10))) : ℚ :=
  (if negative then -1 else 1) *
    (((Nat.ofDigits 10 (whole.reverse.map Fin.val) : ℕ) : ℚ) +
      fractionAmount (fraction.getD []))

end ethers

/-! ## Sample worlds and pages -/

/-- A stand-in for the error the library throws on an amount it cannot parse; the
message is a placeholder, not the library's text. -/
def sampleParseError : JsError :=
  { reason := none, message := "unparsable amount" }

/-- A wallet on Sepolia in which every call succeeds. -/
def sepoliaWorld : World where
  ethereum := true
  contractAddress := "0x5FbDB2315678afecb367f032d93F642f64180aa3"
  abi := "[]"
  parseEther := ethers.parseEtherOrThrow sampleParseError
  formatEther := fun _ => "0.0"
  request := fun _ => .resolved ["0xf39Fd6e51aad88F6F4ce6aB8827279cffFb92266"]
  getNetwork := .resolved 11155111
  getSigner := .resolved "0xf39Fd6e51aad88F6F4ce6aB8827279cffFb92266"
  contractFund := fun _ => .resolved { hash := "0x7a1c", wait := fun _ => .resolved () }
  contractWithdraw := .resolved { hash := "0x9b2e", wait := fun _ => .resolved () }
  getBalance := fun _ => .resolved 0

/-- A page whose amount input holds `1.5`. -/
def samplePage : Page where
  connectButton := "Connect"
  withdrawButton := "Withdraw"
  fundButton := "Fund"
  balanceButton := "getBalance"
  ethAmount := "1.5"

/-- The same page with an empty amount input. -/
def emptyAmountPage : Page := { samplePage with ethAmount := "" }

/-- A browser without a wallet extension. -/
def noWalletWorld : World := { sepoliaWorld with ethereum := false }

/-- The same wallet pointed at chain 1 (mainnet). -/
def mainnetWorld : World := { sepoliaWorld with getNetwork := .resolved 1 }

/-- The error of a user dismissing the wallet's permission dialog. -/
def userRejected : JsError :=
  { reason := none, message := "User rejected the request." }

/-- A wallet whose user rejects every request. -/
def rejectingWorld : World := { sepoliaWorld with request := fun _ => .rejected userRejected }

/-- A wallet that grants account access but cannot produce a signer. -/
def noSignerWorld : World := { sepoliaWorld with getSigner := .rejected userRejected }

/-- A revert that carries the empty string as its reason. -/
def emptyReasonRevert : JsError :=
  { reason := some "", message := "execution reverted" }

/-- A revert that carries a non-empty reason. -/
def minimumRevert : JsError :=
  { reason := some "You need to spend more ETH!", message := "execution reverted" }

/-- A contract whose `fund` reverts with an empty reason. -/
def emptyReasonWorld : World :=
  { sepoliaWorld with contractFund := fun _ => .rejected emptyReasonRevert }

/-- A contract whose `fund` reverts with a non-empty reason. -/
def revertingWorld : World :=
  { sepoliaWorld with contractFund := fun _ => .rejected minimumRevert }

/-- A contract whose `withdraw` reverts. -/
def withdrawRevertingWorld : World :=
  { sepoliaWorld with contractWithdraw := .rejected minimumRevert }

/-! ## Unfolding the handler monad -/

@[simp]
theorem Js.bind_eq {α β : Type} (x : Js α) (f : α → Js β) :
    x >>= f = x.andThen f := rfl

@[simp]
theorem Js.pure_eq {α : Type} (a : α) : (pure a : Js α) = Js.ret a := rfl

@[simp]
theorem Js.throw_eq {α : Type} (e : JsError) : (throw e : Js α) = Js.raise e := rfl

@[simp]
theorem Js.tryCatch_eq {α : Type} (body : Js α) (handler : JsError → Js α) :
    MonadExcept.tryCatch body handler = Js.tryCatch body handler := rfl

/-! ## Digits and amounts -/

namespace ethers

theorem foldl_digits (ds : List Char) (a : Nat) :
    ds.foldl (fun acc c => 10 * acc + digitValue c) a
      = a * 10 ^ ds.length + digitsValue ds := by
  induction ds generalizing a with
  | nil => simp [digitsValue]
  | cons c cs ih =>
    simp only [List.foldl_cons, List.length_cons, digitsValue]
    rw [ih, ih (10 * 0 + digitValue c)]
    ring

theorem digitsValue_cons (c : Char) (cs : List Char) :
    digitsValue (c :: cs) = digitValue c * 10 ^ cs.length + digitsValue cs := by
  unfold digitsValue
  rw [List.foldl_cons, foldl_digits]
  simp [digitsValue]

theorem digitsValue_append (xs ys : List Char) :
    digitsValue (xs ++ ys) = digitsValue xs * 10 ^ ys.length + digitsValue ys := by
  unfold digitsValue
  rw [List.foldl_append, foldl_digits]
  rfl

theorem digitsValue_zeros (ds : List Char) (h : ds.all (fun c => c == '0') = true) :
    digitsValue ds = 0 := by
  induction ds with
  | nil => rfl
  | cons c cs ih =>
    simp only [List.all_cons, Bool.and_eq_true, beq_iff_eq] at h
    rw [digitsValue_cons, ih h.2, h.1]
    simp [digitValue]

theorem digitsValue_replicate_zero (n : Nat) :
    digitsValue (List.replicate n '0') = 0 := by
  apply digitsValue_zeros
  simp [List.all_eq_true]

theorem digitValue_digitChar : ∀ d : Fin 10, digitValue (digitChar d) = d.val := by decide
theorem isDigit_digitChar : ∀ d : Fin 10, (digitChar d).isDigit = true := by decide
theorem digitChar_ne_minus : ∀ d : Fin 10, digitChar d ≠ '-' := by decide
theorem digitChar_ne_point : ∀ d : Fin 10, digitChar d ≠ '.' := by decide

theorem exists_digit (c : Char) (h : c.isDigit = true) : ∃ d : Fin 10, digitChar d = c := by
  simp only [Char.isDigit, Bool.and_eq_true, decide_eq_true_eq] at h
  obtain ⟨h1, h2⟩ := h
  have h1n : 48 ≤ c.toNat := h1
  have h2n : c.toNat ≤ 57 := h2
  refine ⟨⟨c.toNat - 48, by omega⟩, ?_⟩
  simp only [digitChar]
  have : 48 + (c.toNat - 48) = c.toNat := by omega
  rw [this, Char.ofNat_toNat]


theorem exists_digits (cs : List Char) (h : ∀ c ∈ cs, c.isDigit = true) :
    ∃ ds : List (Fin 10), ds.map digitChar = cs := by
  induction cs with
  | nil => exact ⟨[], rfl⟩
  | cons c cs ih =>
    obtain ⟨d, hd⟩ := exists_digit c (h c (List.mem_cons_self _ _))
    obtain ⟨ds, hds⟩ := ih (fun x hx => h x (List.mem_cons_of_mem _ hx))
    exact ⟨d :: ds, by simp [hd, hds]⟩

theorem takeWhile_digits (ds : List (Fin 10)) (fraction : Option (List (Fin 10))) :
    (ds.map digitChar ++ renderFraction fraction).takeWhile Char.isDigit = ds.map digitChar ∧
    (ds.map digitChar ++ renderFraction fraction).dropWhile Char.isDigit
      = renderFraction fraction := by
  induction ds with
  | nil => cases fraction <;> simp [renderFraction, List.takeWhile, List.dropWhile]
  | cons d ds ih =>
    simp [List.takeWhile_cons, List.dropWhile_cons, isDigit_digitChar, ih]

theorem splitDecimal_render (negative : Bool) (whole : List (Fin 10))
    (fraction : Option (List (Fin 10))) :
    splitDecimal (render negative whole fraction)
      = some ⟨negative, whole.map digitChar, (fraction.getD []).map digitChar⟩ := by
  have hbody := takeWhile_digits whole fraction
  have hall : ∀ ds : List (Fin 10), (ds.map digitChar).all Char.isDigit = true := by
    intro ds
    simp [List.all_eq_true, isDigit_digitChar]
  cases negative with
  | true =>
    have hlist : (render true whole fraction).toList
        = '-' :: (whole.map digitChar ++ renderFraction fraction) := rfl
    simp only [splitDecimal, hlist, hbody.1, hbody.2]
    cases fraction with
    | none => simp [renderFraction]
    | some f => simp [renderFraction, hall]
  | false =>
    have hlist : (render false whole fraction).toList
        = whole.map digitChar ++ renderFraction fraction := rfl
    have hhead : ∀ rest, whole.map digitChar ++ renderFraction fraction ≠ '-' :: rest := by
      intro rest heq
      cases whole with
      | nil =>
        cases fraction with
        | none => simp [renderFraction] at heq
        | some f => simp [renderFraction] at heq
      | cons d ds =>
        simp only [List.map_cons, List.cons_append, List.cons.injEq] at heq
        exact digitChar_ne_minus d heq.1
    have hmatch : (match whole.map digitChar ++ renderFraction fraction with
        | '-' :: rest => (true, rest)
        | cs => (false, cs)) = (false, whole.map digitChar ++ renderFraction fraction) := by
      split
      · rename_i rest heq
        exact absurd heq (hhead rest)
      · rfl
    simp only [splitDecimal, hlist, hmatch, hbody.1, hbody.2]
    cases fraction with
    | none => simp [renderFraction]
    | some f => simp [renderFraction, hall]

theorem splitDecimal_complete (s : String) (d : Decimal) (h : splitDecimal s = some d) :
    ∃ whole fraction, s = render d.negative whole fraction ∧
      d.whole = whole.map digitChar ∧ d.fraction = (fraction.getD []).map digitChar := by
  have hpair : ∃ negative body, (match s.toList with
        | '-' :: rest => (true, rest)
        | cs => (false, cs)) = (negative, body) ∧
      s.toList = (if negative then ['-'] else []) ++ body := by
    split
    · rename_i rest heq
      exact ⟨true, rest, rfl, by simpa using heq⟩
    · exact ⟨false, _, rfl, by simp⟩
  obtain ⟨negative, body, hmatch, hlist⟩ := hpair
  simp only [splitDecimal, hmatch] at h
  have hparts := List.takeWhile_append_dropWhile Char.isDigit body
  obtain ⟨whole, hwhole⟩ := exists_digits (body.takeWhile Char.isDigit)
    (fun c hc => List.mem_takeWhile_imp hc)
  split at h
  · rename_i hdrop
    simp only [Option.some.injEq] at h
    subst h
    refine ⟨whole, none, ?_, hwhole.symm, rfl⟩
    apply String.ext
    rw [hdrop, List.append_nil] at hparts
    show s.toList = _
    rw [hlist, ← hparts, ← hwhole]
    simp [render, renderFraction]
  · rename_i f hdrop
    split_ifs at h with hall
    simp only [Option.some.injEq] at h
    subst h
    obtain ⟨fraction, hfraction⟩ := exists_digits f
      (fun c hc => by
        rw [List.all_eq_true] at hall
        exact hall c hc)
    refine ⟨whole, some fraction, ?_, hwhole.symm, hfraction.symm⟩
    apply String.ext
    rw [hdrop] at hparts
    show s.toList = _
    rw [hlist, ← hparts, ← hwhole, ← hfraction]
    simp [render, renderFraction]
  · simp at h


/-- Reading rendered whole digits gives the base-ten number they write. -/
theorem digitsValue_render (ds : List (Fin 10)) :
    digitsValue (ds.map digitChar) = Nat.ofDigits 10 (ds.reverse.map Fin.val) := by
  induction ds with
  | nil => rfl
  | cons d ds ih =>
    rw [List.map_cons, digitsValue_cons, ih, digitValue_digitChar, List.reverse_cons,
      List.map_append, Nat.ofDigits_append]
    simp [Nat.ofDigits_singleton]
    ring

/-- The fraction digits count as the number they write over the matching power of
ten. -/
theorem fractionAmount_eq (ds : List (Fin 10)) :
    fractionAmount ds = (digitsValue (ds.map digitChar) : ℚ) / 10 ^ ds.length := by
  induction ds with
  | nil => simp [fractionAmount, digitsValue]
  | cons d ds ih =>
    rw [fractionAmount, ih, List.map_cons, digitsValue_cons, digitValue_digitChar]
    push_cast
    rw [List.length_cons, pow_succ, List.length_map]
    field_simp

/-- The first eighteen digits of the padded fraction carry the whole fraction
when the digits cut off are zeros. -/
theorem digitsValue_take_padded (f : List Char)
    (hz : ((f ++ List.replicate (18 - f.length) '0').drop 18).all (fun c => c == '0') = true) :
    (digitsValue ((f ++ List.replicate (18 - f.length) '0').take 18) : ℚ)
      = (digitsValue f : ℚ) / 10 ^ f.length * 10 ^ 18 := by
  have hsplit := digitsValue_append ((f ++ List.replicate (18 - f.length) '0').take 18)
    ((f ++ List.replicate (18 - f.length) '0').drop 18)
  rw [List.take_append_drop, digitsValue_zeros _ hz, digitsValue_append,
    digitsValue_replicate_zero] at hsplit
  simp only [List.length_replicate, List.length_drop, List.length_append, add_zero] at hsplit
  have hpos : (10 : ℚ) ^ f.length ≠ 0 := by positivity
  rw [div_mul_eq_mul_div, eq_div_iff hpos]
  generalize digitsValue ((f ++ List.replicate (18 - f.length) '0').take 18) = t at hsplit ⊢
  have hnat : t * 10 ^ f.length = digitsValue f * 10 ^ 18 := by
    by_cases hle : f.length ≤ 18
    · have h0 : f.length + (18 - f.length) - 18 = 0 := by omega
      have h1 : 18 = (18 - f.length) + f.length := by omega
      rw [h0, pow_zero, mul_one] at hsplit
      rw [← hsplit, mul_assoc, ← pow_add, ← h1]
    · have h0 : 18 - f.length = 0 := by omega
      have h1 : f.length + 0 - 18 + 18 = f.length := by omega
      rw [h0, pow_zero, mul_one] at hsplit
      rw [hsplit, mul_assoc, ← pow_add, h1]
  exact_mod_cast hnat

theorem length_take_padded (f : List Char) :
    ((f ++ List.replicate (18 - f.length) '0').take 18).length = 18 := by
  simp only [List.length_take, List.length_append, List.length_replicate]
  omega

/-- The magnitude `parseEther` computes for a rendered numeral is the amount of
the unsigned numeral times `10^18`. -/
theorem magnitude_render (whole : List (Fin 10)) (fraction : Option (List (Fin 10)))
    (hz : (((fraction.getD []).map digitChar ++
        List.replicate (18 - ((fraction.getD []).map digitChar).length) '0').drop 18).all
          (fun c => c == '0') = true) :
    (digitsValue (whole.map digitChar ++
        ((fraction.getD []).map digitChar ++
          List.replicate (18 - ((fraction.getD []).map digitChar).length) '0').take 18) : ℚ)
      = amount false whole fraction * 10 ^ 18 := by
  rw [digitsValue_append, length_take_padded]
  push_cast
  rw [digitsValue_take_padded _ hz, digitsValue_render, amount, fractionAmount_eq,
    List.length_map, if_neg (by decide), one_mul]
  ring

/-- Whatever `parseEther` returns on a rendered numeral is its amount times
`10^18`. -/
theorem parseEther_render (negative : Bool) (whole : List (Fin 10))
    (fraction : Option (List (Fin 10))) (v : Int)
    (h : parseEther (render negative whole fraction) = some v) :
    (v : ℚ) = amount negative whole fraction * 10 ^ 18 := by
  unfold parseEther at h
  rw [splitDecimal_render] at h
  simp only at h
  split_ifs at h with h0 hz hneg hlim hlim
  · simp only [Option.some.injEq] at h
    rw [← h]
    push_cast
    rw [magnitude_render whole fraction hz, amount, amount, if_pos hneg, if_neg (by decide)]
    ring
  · simp only [Option.some.injEq] at h
    rw [← h]
    push_cast
    rw [magnitude_render whole fraction hz, amount, amount, if_neg hneg, if_neg (by decide)]

/-- Every string `parseEther` accepts is a rendered decimal numeral. -/
theorem parseEther_numeral (s : String) (v : Int) (h : parseEther s = some v) :
    ∃ negative whole fraction, s = render negative whole fraction := by
  unfold parseEther at h
  cases hd : splitDecimal s with
  | none => simp [hd] at h
  | some d =>
    obtain ⟨whole, fraction, hs, _, _⟩ := splitDecimal_complete s d hd
    exact ⟨d.negative, whole, fraction, hs⟩

theorem lt_shiftLeft_of_cast_lt (m n : Nat) (h : (m : ℚ) < 2 ^ n) : m < 1 <<< n := by
  rw [Nat.one_shiftLeft]
  exact_mod_cast h

/-- Every numeral with at least one digit, at most eighteen fraction digits and a
magnitude inside the 512-bit range is parsed. -/
theorem parseEther_render_isSome (negative : Bool) (whole : List (Fin 10))
    (fraction : Option (List (Fin 10)))
    (hdigit : whole.length + (fraction.getD []).length ≠ 0)
    (hplaces : (fraction.getD []).length ≤ 18)
    (hrange : amount false whole fraction * 10 ^ 18 < 2 ^ 511) :
    ∃ v, parseEther (render negative whole fraction) = some v := by
  have hz : (((fraction.getD []).map digitChar ++
        List.replicate (18 - ((fraction.getD []).map digitChar).length) '0').drop 18).all
          (fun c => c == '0') = true := by
    rw [List.drop_of_length_le]
    · rfl
    · simp only [List.length_append, List.length_map, List.length_replicate]
      omega
  have hmag := magnitude_render whole fraction hz
  rw [← hmag] at hrange
  have hlt : digitsValue (whole.map digitChar ++
        ((fraction.getD []).map digitChar ++
          List.replicate (18 - ((fraction.getD []).map digitChar).length) '0').take 18)
      < 1 <<< 511 := by
    exact lt_shiftLeft_of_cast_lt _ 511 hrange
  unfold parseEther
  rw [splitDecimal_render]
  simp only
  rw [if_neg (by simpa using hdigit), if_pos hz]
  cases negative with
  | true => exact ⟨_, if_pos hlt.le⟩
  | false => exact ⟨_, if_pos hlt⟩

end ethers

/-! ## Telling the alert texts apart -/

theorem failed_ne_success (r a : String) :
    "Transaction failed: " ++ r ≠ "Successfully funded with " ++ a ++ " ETH!" := by
  intro h
  have h1 := congrArg (fun s => s.data.head?) h
  simp at h1

theorem error_ne_success (m a : String) :
    "Error: " ++ m ≠ "Successfully funded with " ++ a ++ " ETH!" := by
  intro h
  have h1 := congrArg (fun s => s.data.head?) h
  simp at h1

theorem error_ne_failed (m r : String) : "Error: " ++ m ≠ "Transaction failed: " ++ r := by
  intro h
  have h1 := congrArg (fun s => s.data.head?) h
  simp at h1

/-! ## The paths of `fund` -/

/-- The run of `fund` when every step up to the confirmation succeeds. -/
theorem fund_run_success (w : World) (p : Page) (accounts : List String) (signer : String)
    (value : Int) (tx : TransactionResponse)
    (hprovider : w.ethereum = true)
    (haccounts : w.request "eth_requestAccounts" = .resolved accounts)
    (hnetwork : w.getNetwork = .resolved expectedChainId)
    (hsigner : w.getSigner = .resolved signer)
    (hparse : w.parseEther p.ethAmount = .ok value)
    (haccepted : w.contractFund value = .resolved tx)
    (hconfirmed : tx.wait 1 = .resolved ()) :
    run (fund w) p =
      { page := p,
        trace := [.consoleLog [.str ("Funding with " ++ p.ethAmount ++ "...")],
          .newBrowserProvider,
          .await (.send "eth_requestAccounts" []) true,
          .await .getNetwork true,
          .consoleLog [.str "Connected to network chainId:", .str (toString expectedChainId)],
          .await .getSigner true,
          .newContract w.contractAddress w.abi signer,
          .consoleLog [.str "Sending transaction..."],
          .await (.fund [("value", value)]) true,
          .consoleLog [.str "Transaction hash:", .str tx.hash],
          .consoleLog [.str "Waiting for confirmation..."],
          .await (.wait 1) true,
          .consoleLog [.str "Done! Funded successfully!"],
          .alert ("Successfully funded with " ++ p.ethAmount ++ " ETH!")],
        escaped := none } := by
  simp [run, fund, hprovider, haccounts, hnetwork, hsigner, hparse, haccepted, hconfirmed,
    expectedChainId]

/-- The awaited calls of any run of `fund`: an initial part of the sequence
account request, network read, signer resolution, paying call, confirmation wait;
the paying call is reached only with the parsed amount. -/
theorem fund_calls_cases (w : World) (p : Page) :
    calls (run (fund w) p).trace = [] ∨
    calls (run (fund w) p).trace = [.send "eth_requestAccounts" []] ∨
    calls (run (fund w) p).trace = [.send "eth_requestAccounts" [], .getNetwork] ∨
    calls (run (fund w) p).trace = [.send "eth_requestAccounts" [], .getNetwork, .getSigner] ∨
    ∃ value, w.parseEther p.ethAmount = .ok value ∧
      (calls (run (fund w) p).trace
          = [.send "eth_requestAccounts" [], .getNetwork, .getSigner,
              .fund [("value", value)]] ∨
        calls (run (fund w) p).trace = fundSequence value) := by
  cases hprovider : w.ethereum with
  | false => left; simp [run, fund, calls, hprovider]
  | true =>
    cases haccounts : w.request "eth_requestAccounts" with
    | rejected e => right; left; simp [run, fund, calls, hprovider, haccounts]
    | resolved accounts =>
      cases hnetwork : w.getNetwork with
      | rejected e =>
        right; right; left; simp [run, fund, calls, hprovider, haccounts, hnetwork]
      | resolved chainId =>
        by_cases hid : chainId = 11155111
        · subst hid
          cases hsigner : w.getSigner with
          | rejected e =>
            right; right; right; left
            simp [run, fund, calls, hprovider, haccounts, hnetwork, hsigner]
          | resolved signer =>
            cases hparse : w.parseEther p.ethAmount with
            | error e =>
              right; right; right; left
              by_cases hr : e.reasonTruthy <;>
                simp [run, fund, calls, hprovider, haccounts, hnetwork, hsigner, hparse, hr]
            | ok value =>
              right; right; right; right
              refine ⟨value, rfl, ?_⟩
              cases haccepted : w.contractFund value with
              | rejected e =>
                left
                by_cases hr : e.reasonTruthy <;>
                  simp [run, fund, calls, hprovider, haccounts, hnetwork, hsigner, hparse,
                    haccepted, hr]
              | resolved tx =>
                right
                cases hwait : tx.wait 1 with
                | rejected e =>
                  by_cases hr : e.reasonTruthy <;>
                    simp [run, fund, calls, fundSequence, hprovider, haccounts, hnetwork,
                      hsigner, hparse, haccepted, hwait, hr]
                | resolved u =>
                  simp [run, fund, calls, fundSequence, hprovider, haccounts, hnetwork,
                    hsigner, hparse, haccepted, hwait]
        · right; right; left
          simp [run, fund, calls, hprovider, haccounts, hnetwork, hid]

/-! ## The claims -/

/-- C1: when `fund` runs with a wallet provider present and the provider reports
a chain id other than 11155111 (the account request was granted and the network
read resolved with that id), `contract.fund` is never called, no signer is
resolved, no contract binding is built, the only alert is the switch-to-Sepolia
message, and the handler returns normally. -/
theorem fund_wrong_network_aborts (w : World) (p : Page) (accounts : List String)
    (chainId : Int)
    (hprovider : w.ethereum = true)
    (haccounts : w.request "eth_requestAccounts" = .resolved accounts)
    (hnetwork : w.getNetwork = .resolved chainId)
    (hwrong : chainId ≠ expectedChainId) :
    (∀ overrides ok, Event.await (.fund overrides) ok ∉ (run (fund w) p).trace) ∧
    (∀ ok, Event.await .getSigner ok ∉ (run (fund w) p).trace) ∧
    (∀ address abi signer, Event.newContract address abi signer ∉ (run (fund w) p).trace) ∧
    alerts (run (fund w) p).trace
      = ["Wrong Network! Please switch MetaMask to Sepolia Testnet"] ∧
    (run (fund w) p).escaped = none := by
  have hne : chainId ≠ 11155111 := hwrong
  simp [run, fund, hprovider, haccounts, hnetwork, hne, alerts]

/-- Witness of C1: the wallet pointed at chain 1. -/
theorem fund_wrong_network_aborts_witness :
    mainnetWorld.getNetwork = .resolved 1 ∧
    alerts (run (fund mainnetWorld) samplePage).trace
      = ["Wrong Network! Please switch MetaMask to Sepolia Testnet"] ∧
    (run (fund mainnetWorld) samplePage).escaped = none :=
  ⟨rfl,
    (fund_wrong_network_aborts mainnetWorld samplePage _ 1 rfl rfl rfl (by decide)).2.2.2⟩

/-- C2: without a wallet provider each of the four handlers returns normally,
makes no provider, library or contract call and shows no alert; all it does to
the page is to set its own button to "Please install MetaMask" (`withdraw` and
`fund` also write their opening console line). -/
theorem no_provider_fallback (w : World) (p : Page) (hnone : w.ethereum = false) :
    run (connect w) p =
      { page := { p with connectButton := "Please install MetaMask" },
        trace := [.setInnerHTML .connectButton "Please install MetaMask"],
        escaped := none } ∧
    run (withdraw w) p =
      { page := { p with withdrawButton := "Please install MetaMask" },
        trace := [.consoleLog [.str "Withdrawing..."],
                  .setInnerHTML .withdrawButton "Please install MetaMask"],
        escaped := none } ∧
    run (fund w) p =
      { page := { p with fundButton := "Please install MetaMask" },
        trace := [.consoleLog [.str ("Funding with " ++ p.ethAmount ++ "...")],
                  .setInnerHTML .fundButton "Please install MetaMask"],
        escaped := none } ∧
    run (getBalance w) p =
      { page := { p with balanceButton := "Please install MetaMask" },
        trace := [.setInnerHTML .balanceButton "Please install MetaMask"],
        escaped := none } := by
  simp [run, connect, withdraw, fund, getBalance, hnone, Page.setInnerHTML]

/-- Witness of C2: a browser without a wallet extension. -/
theorem no_provider_fallback_witness :
    noWalletWorld.ethereum = false ∧
    (run (fund noWalletWorld) samplePage).page
      = { samplePage with fundButton := "Please install MetaMask" } ∧
    alerts (run (fund noWalletWorld) samplePage).trace = [] ∧
    calls (run (fund noWalletWorld) samplePage).trace = [] := by
  have h := (no_provider_fallback noWalletWorld samplePage rfl).2.2.1
  refine ⟨rfl, ?_, ?_, ?_⟩
  · rw [h]
  · rw [h]; rfl
  · rw [h]; rfl

/-- C3: for an amount string the library parses, the string is a decimal numeral
and the parsed value is the integer equal to the amount that numeral denotes
times `10^18`; every `contract.fund` call that `fund` makes carries exactly the
overrides `value: parsed value`; on the expected network (account request
granted, chain id 11155111, signer resolved) that call is made exactly once.
The library does parse every numeral with at least one digit, at most eighteen
fraction digits and a magnitude inside its 512-bit range, and `"1.5"` parses to
1500000000000000000. -/
theorem fund_passes_parsed_value (w : World) (p : Page) (value : Int)
    (hlibrary : ∀ s v, ethers.parseEther s = some v → w.parseEther s = .ok v)
    (hparse : ethers.parseEther p.ethAmount = some value) :
    (∃ negative whole fraction, p.ethAmount = ethers.render negative whole fraction) ∧
    (∀ negative whole fraction, p.ethAmount = ethers.render negative whole fraction →
      (value : ℚ) = ethers.amount negative whole fraction * 10 ^ 18) ∧
    (∀ overrides ∈ fundCalls (run (fund w) p).trace, overrides = [("value", value)]) ∧
    (∀ accounts signer, w.ethereum = true →
      w.request "eth_requestAccounts" = .resolved accounts →
      w.getNetwork = .resolved expectedChainId →
      w.getSigner = .resolved signer →
      fundCalls (run (fund w) p).trace = [[("value", value)]]) ∧
    (∀ negative whole fraction, whole.length + (fraction.getD []).length ≠ 0 →
      (fraction.getD []).length ≤ 18 →
      ethers.amount false whole fraction * 10 ^ 18 < 2 ^ 511 →
      ∃ v, ethers.parseEther (ethers.render negative whole fraction) = some v) ∧
    ethers.parseEther "1.5" = some 1500000000000000000 := by
  have hok := hlibrary _ _ hparse
  refine ⟨ethers.parseEther_numeral _ _ hparse, ?_, ?_, ?_,
    ethers.parseEther_render_isSome, by decide⟩
  · intro negative whole fraction hrender
    rw [hrender] at hparse
    exact ethers.parseEther_render negative whole fraction value hparse
  · intro overrides hmem
    rcases fund_calls_cases w p with h | h | h | h | ⟨v, hv, h | h⟩ <;>
      rw [fundCalls, h] at hmem <;> simp [fundSequence] at hmem
    all_goals
      rw [hok] at hv
      cases hv
      exact hmem
  · intro accounts signer hprovider haccounts hnetwork hsigner
    cases haccepted : w.contractFund value with
    | rejected e =>
      by_cases hr : e.reasonTruthy <;>
        simp [run, fund, fundCalls, calls, hprovider, haccounts, hnetwork, hsigner, hok,
          haccepted, expectedChainId, hr]
    | resolved tx =>
      cases hwait : tx.wait 1 with
      | rejected e =>
        by_cases hr : e.reasonTruthy <;>
          simp [run, fund, fundCalls, calls, hprovider, haccounts, hnetwork, hsigner, hok,
            haccepted, expectedChainId, hr, hwait]
      | resolved u =>
        simp [run, fund, fundCalls, calls, hprovider, haccounts, hnetwork, hsigner, hok,
          haccepted, expectedChainId, hwait]

/-- Witness of C3: the amount `1.5` on Sepolia, the numeral with whole digit 1 and
fraction digit 5. -/
theorem fund_passes_parsed_value_witness :
    ethers.parseEther samplePage.ethAmount = some 1500000000000000000 ∧
    samplePage.ethAmount = ethers.render false [1] (some [5]) ∧
    ((1500000000000000000 : Int) : ℚ) = ethers.amount false [1] (some [5]) * 10 ^ 18 ∧
    fundCalls (run (fund sepoliaWorld) samplePage).trace
      = [[("value", 1500000000000000000)]] := by
  have h := fund_passes_parsed_value sepoliaWorld samplePage 1500000000000000000
    (fun s v h => by simp [sepoliaWorld, ethers.parseEtherOrThrow, h]) (by decide)
  exact ⟨by decide, by decide, h.2.1 false [1] (some [5]) (by decide),
    h.2.2.2.1 _ _ rfl rfl rfl rfl⟩

/-- C4: when `fund` runs on the expected network, the paying call is accepted and
its `wait(1)` resolves, the whole run produces exactly one alert, the text
"Successfully funded with <amount> ETH!" built from the amount string as read
from the `ethAmount` input; that alert is the last event of the run and the
resolved confirmation wait is in the trace, hence before it. -/
theorem fund_success_alert (w : World) (p : Page) (accounts : List String) (signer : String)
    (value : Int) (tx : TransactionResponse)
    (hprovider : w.ethereum = true)
    (haccounts : w.request "eth_requestAccounts" = .resolved accounts)
    (hnetwork : w.getNetwork = .resolved expectedChainId)
    (hsigner : w.getSigner = .resolved signer)
    (hparse : w.parseEther p.ethAmount = .ok value)
    (haccepted : w.contractFund value = .resolved tx)
    (hconfirmed : tx.wait 1 = .resolved ()) :
    alerts (run (fund w) p).trace
      = ["Successfully funded with " ++ p.ethAmount ++ " ETH!"] ∧
    (run (fund w) p).trace.getLast?
      = some (.alert ("Successfully funded with " ++ p.ethAmount ++ " ETH!")) ∧
    Event.await (.wait 1) true ∈ (run (fund w) p).trace.dropLast ∧
    (run (fund w) p).escaped = none := by
  rw [fund_run_success w p accounts signer value tx hprovider haccounts hnetwork hsigner
    hparse haccepted hconfirmed]
  simp [alerts]

/-- Witness of C4: funding `1.5` on Sepolia. -/
theorem fund_success_alert_witness :
    sepoliaWorld.getNetwork = .resolved expectedChainId ∧
    alerts (run (fund sepoliaWorld) samplePage).trace
      = ["Successfully funded with " ++ samplePage.ethAmount ++ " ETH!"] :=
  ⟨rfl,
    (fund_success_alert sepoliaWorld samplePage _ _ 1500000000000000000
      { hash := "0x7a1c", wait := fun _ => .resolved () } rfl rfl rfl rfl rfl rfl
      rfl).1⟩

/-- C5 as stated fails: a revert whose reason is the empty string is a reason
string the error carries, yet the alert is the generic one built from
`error.message`, not "Transaction failed: " followed by the reason. -/
theorem fund_empty_reason_counterexample :
    emptyReasonWorld.contractFund 1500000000000000000 = .rejected emptyReasonRevert ∧
    emptyReasonRevert.reason = some "" ∧
    alerts (run (fund emptyReasonWorld) samplePage).trace = ["Error: execution reverted"] ∧
    alerts (run (fund emptyReasonWorld) samplePage).trace ≠ ["Transaction failed: " ++ ""] :=
  ⟨rfl, rfl, by decide, by decide⟩

/-- C5, amended: when `fund` runs on the expected network and the paying call or
its confirmation wait fails with an error whose reason is a non-empty string,
the run produces exactly one alert, "Transaction failed: " followed by that
reason; the generic text built from `error.message` is not shown, and the
handler returns normally. -/
theorem fund_failure_alert_reason (w : World) (p : Page) (accounts : List String)
    (signer : String) (value : Int) (e : JsError) (reason : String)
    (hprovider : w.ethereum = true)
    (haccounts : w.request "eth_requestAccounts" = .resolved accounts)
    (hnetwork : w.getNetwork = .resolved expectedChainId)
    (hsigner : w.getSigner = .resolved signer)
    (hparse : w.parseEther p.ethAmount = .ok value)
    (hfails : w.contractFund value = .rejected e ∨
      ∃ tx, w.contractFund value = .resolved tx ∧ tx.wait 1 = .rejected e)
    (hreason : e.reason = some reason)
    (hnonempty : reason ≠ "") :
    alerts (run (fund w) p).trace = ["Transaction failed: " ++ reason] ∧
    "Error: " ++ e.message ∉ alerts (run (fund w) p).trace ∧
    (run (fund w) p).escaped = none := by
  have htruthy : e.reasonTruthy = true := by simp [JsError.reasonTruthy, hreason, hnonempty]
  have htext : e.reasonText = reason := by simp [JsError.reasonText, hreason]
  have hne := error_ne_failed e.message reason
  rcases hfails with hrejected | ⟨tx, haccepted, hwait⟩
  · simp [run, fund, alerts, hprovider, haccounts, hnetwork, hsigner, hparse, hrejected,
      expectedChainId, htruthy, htext, hne]
  · simp [run, fund, alerts, hprovider, haccounts, hnetwork, hsigner, hparse, haccepted,
      hwait, expectedChainId, htruthy, htext, hne]

/-- Witness of C5 amended: a revert with the reason "You need to spend more ETH!". -/
theorem fund_failure_alert_reason_witness :
    minimumRevert.reason = some "You need to spend more ETH!" ∧
    alerts (run (fund revertingWorld) samplePage).trace
      = ["Transaction failed: " ++ "You need to spend more ETH!"] :=
  ⟨rfl,
    (fund_failure_alert_reason revertingWorld samplePage _ _ 1500000000000000000
      minimumRevert "You need to spend more ETH!" rfl rfl rfl rfl rfl (Or.inl rfl)
      rfl (by decide)).1⟩

/-- C6: when `getBalance` runs with a wallet provider present, its only awaited
call is one `provider.getBalance(contractAddress)`: no account request, no signer
resolution, no contract call, and no contract binding is built.  It shows no
alert, leaves the page alone and returns normally; a rejected query is logged. -/
theorem getBalance_reads_contract_only (w : World) (p : Page)
    (hprovider : w.ethereum = true) :
    calls (run (getBalance w) p).trace = [.getBalance w.contractAddress] ∧
    (∀ address abi signer,
      Event.newContract address abi signer ∉ (run (getBalance w) p).trace) ∧
    (run (getBalance w) p).escaped = none ∧
    (∀ e, w.getBalance w.contractAddress = .rejected e →
      Event.consoleLog [.error e] ∈ (run (getBalance w) p).trace) ∧
    alerts (run (getBalance w) p).trace = [] ∧
    (run (getBalance w) p).page = p := by
  cases hbalance : w.getBalance w.contractAddress <;>
    simp [run, getBalance, calls, alerts, hprovider, hbalance]

/-- Witness of C6: the balance query on Sepolia. -/
theorem getBalance_reads_contract_only_witness :
    sepoliaWorld.ethereum = true ∧
    calls (run (getBalance sepoliaWorld) samplePage).trace
      = [.getBalance sepoliaWorld.contractAddress] :=
  ⟨rfl, (getBalance_reads_contract_only sepoliaWorld samplePage rfl).1⟩

/-- C7: when `connect` runs with a wallet provider present it returns normally
whichever request rejects; it assigns "Connected" to `connectButton` exactly
when the `eth_requestAccounts` request resolved, and when that request is
rejected the page is unchanged and the error is logged. -/
theorem connect_label_iff_granted (w : World) (p : Page) (hprovider : w.ethereum = true) :
    (run (connect w) p).escaped = none ∧
    (Event.setInnerHTML .connectButton "Connected" ∈ (run (connect w) p).trace ↔
      ∃ accounts, w.request "eth_requestAccounts" = .resolved accounts) ∧
    (∀ accounts, w.request "eth_requestAccounts" = .resolved accounts →
      (run (connect w) p).page = { p with connectButton := "Connected" }) ∧
    (∀ e, w.request "eth_requestAccounts" = .rejected e →
      (run (connect w) p).page = p ∧
      (run (connect w) p).trace
        = [.await (.request "eth_requestAccounts") false, .consoleLog [.error e]]) := by
  cases hgranted : w.request "eth_requestAccounts" <;>
    cases hlisted : w.request "eth_accounts" <;>
    simp [run, connect, hprovider, hgranted, hlisted, Page.setInnerHTML]

/-- Witness of C7: a user who rejects the permission request. -/
theorem connect_label_iff_granted_witness :
    rejectingWorld.ethereum = true ∧
    (run (connect rejectingWorld) samplePage).escaped = none ∧
    (run (connect rejectingWorld) samplePage).page = samplePage :=
  ⟨rfl, (connect_label_iff_granted rejectingWorld samplePage rfl).1,
    ((connect_label_iff_granted rejectingWorld samplePage rfl).2.2.2
      userRejected rfl).1⟩

/-- C8 as stated fails: a rejected account request and a failed signer
resolution happen before the `try` block of `withdraw`, so the handler's promise
rejects with the error and the handler logs nothing about it. -/
theorem withdraw_early_failure_counterexample :
    rejectingWorld.ethereum = true ∧
    (run (withdraw rejectingWorld) samplePage).escaped = some userRejected ∧
    Event.consoleLog [.error userRejected] ∉ (run (withdraw rejectingWorld) samplePage).trace ∧
    noSignerWorld.ethereum = true ∧
    (run (withdraw noSignerWorld) samplePage).escaped = some userRejected ∧
    Event.consoleLog [.error userRejected] ∉ (run (withdraw noSignerWorld) samplePage).trace :=
  ⟨rfl, by decide, by decide, rfl, by decide, by decide⟩

/-- C8, amended: when `withdraw` runs with a wallet provider present, no alert is
shown and no button label changes, whatever fails; and once the account request
and the signer resolution have succeeded, a rejected `contract.withdraw()` or a
failed `wait(1)` is caught and logged, and the handler returns normally. -/
theorem withdraw_failures (w : World) (p : Page) (hprovider : w.ethereum = true) :
    (run (withdraw w) p).page = p ∧
    alerts (run (withdraw w) p).trace = [] ∧
    (∀ accounts signer, w.request "eth_requestAccounts" = .resolved accounts →
      w.getSigner = .resolved signer →
      (run (withdraw w) p).escaped = none ∧
      (∀ e, w.contractWithdraw = .rejected e →
        Event.consoleLog [.error e] ∈ (run (withdraw w) p).trace) ∧
      (∀ tx e, w.contractWithdraw = .resolved tx → tx.wait 1 = .rejected e →
        Event.consoleLog [.error e] ∈ (run (withdraw w) p).trace)) := by
  cases haccounts : w.request "eth_requestAccounts" with
  | rejected e => simp [run, withdraw, alerts, hprovider, haccounts]
  | resolved accounts =>
    cases hsigner : w.getSigner with
    | rejected e => simp [run, withdraw, alerts, hprovider, haccounts, hsigner]
    | resolved signer =>
      cases hsent : w.contractWithdraw with
      | rejected e => simp [run, withdraw, alerts, hprovider, haccounts, hsigner, hsent]
      | resolved tx =>
        cases hwait : tx.wait 1 with
        | resolved u =>
          simp [run, withdraw, alerts, hprovider, haccounts, hsigner, hsent, hwait]
          intro tx1 e htx
          subst htx
          simp [hwait]
        | rejected e0 =>
          simp [run, withdraw, alerts, hprovider, haccounts, hsigner, hsent, hwait]
          intro tx1 e htx hrejected
          subst htx
          rw [hwait] at hrejected
          cases hrejected
          rfl

/-- Witness of C8 amended: a `withdraw` that reverts. -/
theorem withdraw_failures_witness :
    withdrawRevertingWorld.ethereum = true ∧
    (run (withdraw withdrawRevertingWorld) samplePage).escaped = none ∧
    Event.consoleLog [.error minimumRevert]
      ∈ (run (withdraw withdrawRevertingWorld) samplePage).trace :=
  ⟨rfl,
    ((withdraw_failures withdrawRevertingWorld samplePage rfl).2.2 _ _ rfl rfl).1,
    ((withdraw_failures withdrawRevertingWorld samplePage rfl).2.2 _ _ rfl rfl).2.1
      minimumRevert rfl⟩

/-- The awaited calls of any run of `withdraw` are an initial part of
`withdrawSequence`. -/
theorem withdraw_calls_initial (w : World) (p : Page) :
    calls (run (withdraw w) p).trace <+: withdrawSequence := by
  cases hprovider : w.ethereum with
  | false => simp [run, withdraw, calls, hprovider]
  | true =>
    cases haccounts : w.request "eth_requestAccounts" with
    | rejected e => simp [run, withdraw, calls, withdrawSequence, hprovider, haccounts]
    | resolved accounts =>
      cases hsigner : w.getSigner with
      | rejected e =>
        simp [run, withdraw, calls, withdrawSequence, hprovider, haccounts, hsigner]
      | resolved signer =>
        cases hsent : w.contractWithdraw with
        | rejected e =>
          simp [run, withdraw, calls, withdrawSequence, hprovider, haccounts, hsigner, hsent]
        | resolved tx =>
          cases hwait : tx.wait 1 <;>
            simp [run, withdraw, calls, withdrawSequence, hprovider, haccounts, hsigner,
              hsent, hwait]

/-- C9: a `fund` in which every step succeeds makes exactly the awaited calls
account request, network read, signer resolution, paying call, `wait(1)`, each
once and in that order; a `withdraw` in which every step succeeds makes the same
calls without the network read.  In any run at all the calls made are an initial
part of that sequence, so the network read comes before the signer and the
paying call, and no call is repeated. -/
theorem call_sequences (w : World) (p : Page) :
    (∀ accounts signer value tx, w.ethereum = true →
      w.request "eth_requestAccounts" = .resolved accounts →
      w.getNetwork = .resolved expectedChainId →
      w.getSigner = .resolved signer →
      w.parseEther p.ethAmount = .ok value →
      w.contractFund value = .resolved tx →
      tx.wait 1 = .resolved () →
      calls (run (fund w) p).trace = fundSequence value) ∧
    (∀ accounts signer tx, w.ethereum = true →
      w.request "eth_requestAccounts" = .resolved accounts →
      w.getSigner = .resolved signer →
      w.contractWithdraw = .resolved tx →
      tx.wait 1 = .resolved () →
      calls (run (withdraw w) p).trace = withdrawSequence) ∧
    (∃ value, calls (run (fund w) p).trace <+: fundSequence value) ∧
    calls (run (withdraw w) p).trace <+: withdrawSequence := by
  refine ⟨?_, ?_, ?_, withdraw_calls_initial w p⟩
  · intro accounts signer value tx hprovider haccounts hnetwork hsigner hparse haccepted
      hconfirmed
    rw [fund_run_success w p accounts signer value tx hprovider haccounts hnetwork hsigner
      hparse haccepted hconfirmed]
    simp [calls, fundSequence]
  · intro accounts signer tx hprovider haccounts hsigner hsent hconfirmed
    simp [run, withdraw, calls, withdrawSequence, hprovider, haccounts, hsigner, hsent,
      hconfirmed]
  · rcases fund_calls_cases w p with h | h | h | h | ⟨v, _, h | h⟩
    · exact ⟨0, by simp [h]⟩
    · exact ⟨0, by simp [h, fundSequence]⟩
    · exact ⟨0, by simp [h, fundSequence]⟩
    · exact ⟨0, by simp [h, fundSequence]⟩
    · exact ⟨v, by simp [h, fundSequence]⟩
    · exact ⟨v, by simp [h]⟩

/-- Witness of C9: funding `1.5` and withdrawing on Sepolia. -/
theorem call_sequences_witness :
    calls (run (fund sepoliaWorld) samplePage).trace = fundSequence 1500000000000000000 ∧
    calls (run (withdraw sepoliaWorld) samplePage).trace = withdrawSequence :=
  ⟨(call_sequences sepoliaWorld samplePage).1 _ _ 1500000000000000000
      { hash := "0x7a1c", wait := fun _ => .resolved () } rfl rfl rfl rfl rfl rfl rfl,
    (call_sequences sepoliaWorld samplePage).2.1 _ _
      { hash := "0x9b2e", wait := fun _ => .resolved () } rfl rfl rfl rfl rfl⟩

/-- C10 as stated fails: on the expected network with an amount the library cannot
parse, a failed signer resolution (line 66, before the `try` block) makes the
handler's promise reject, and no alert is shown. -/
theorem fund_unparsable_no_signer_counterexample :
    noSignerWorld.getNetwork = .resolved expectedChainId ∧
    ethers.parseEther emptyAmountPage.ethAmount = none ∧
    alerts (run (fund noSignerWorld) emptyAmountPage).trace = [] ∧
    (run (fund noSignerWorld) emptyAmountPage).escaped = some userRejected :=
  ⟨rfl, by decide, by decide, by decide⟩

/-- C10, amended: when `fund` runs on the expected network, the signer resolves
and the library cannot parse the amount string, the parse throws while the
argument of `contract.fund` is built: the paying call is never made, the error is
caught and logged, exactly one alert is shown, the failure alert for that error
and never the success alert, and the handler returns normally. -/
theorem fund_unparsable_amount (w : World) (p : Page) (accounts : List String)
    (signer : String) (e : JsError)
    (hprovider : w.ethereum = true)
    (haccounts : w.request "eth_requestAccounts" = .resolved accounts)
    (hnetwork : w.getNetwork = .resolved expectedChainId)
    (hsigner : w.getSigner = .resolved signer)
    (hparse : w.parseEther p.ethAmount = .error e) :
    (∀ overrides ok, Event.await (.fund overrides) ok ∉ (run (fund w) p).trace) ∧
    Event.consoleError [.str "Error details:", .error e] ∈ (run (fund w) p).trace ∧
    alerts (run (fund w) p).trace
      = [if e.reasonTruthy then "Transaction failed: " ++ e.reasonText
         else "Error: " ++ e.message] ∧
    "Successfully funded with " ++ p.ethAmount ++ " ETH!" ∉ alerts (run (fund w) p).trace ∧
    (run (fund w) p).escaped = none := by
  have h1 := (failed_ne_success e.reasonText p.ethAmount).symm
  have h2 := (error_ne_success e.message p.ethAmount).symm
  by_cases hr : e.reasonTruthy <;>
    simp [run, fund, alerts, hprovider, haccounts, hnetwork, hsigner, hparse,
      expectedChainId, hr, h1, h2]

/-- Witness of C10 amended: an empty amount input on Sepolia. -/
theorem fund_unparsable_amount_witness :
    ethers.parseEther emptyAmountPage.ethAmount = none ∧
    alerts (run (fund sepoliaWorld) emptyAmountPage).trace
      = ["Error: " ++ sampleParseError.message] ∧
    (run (fund sepoliaWorld) emptyAmountPage).escaped = none := by
  have h := fund_unparsable_amount sepoliaWorld emptyAmountPage _ _
    sampleParseError rfl rfl rfl rfl rfl
  exact ⟨by decide, h.2.2.1, h.2.2.2.2⟩

end FundMe
